import Mathlib

/-!
Verification of the systerm repository's data cleaning and aggregation pipeline.

The embedding models `src/price_analysis.py` (Loader `load_data`, Aggregator
`summarize`, exporter `export_tables`) and `src/analyze_products.py`
(`analyze_by_category` cleaning, `identify_issues` tier classification).
Machine floats are modelled exactly: finite values as rationals, with an
explicit `PVal` type carrying NaN and signed infinities where division can
produce them.  A raw numeric spreadsheet cell is `missing` (NaN), a value
that parses as a number, or text that does not parse.
-/

namespace Systerm

/-- Raw numeric-column cell: empty (NaN), parses as a number, or unparseable text. -/
inductive Cell where
  | missing : Cell
  | numeric : ℚ → Cell
  | text : String → Cell
  deriving DecidableEq

/-- Value of a raw row, keyed by the source columns 一级分类, 商品名称 and the
four numeric columns of NUMERIC_COLS. -/
structure RawRow where
  category : Option String
  productName : Option String
  salesAmount : Cell
  grossProfit : Cell
  marginRate : Cell
  contribution : Cell
  deriving DecidableEq

/-- Cleaned row after `pd.to_numeric(..., errors="coerce")`: each numeric cell
independently becomes `some q` if it parses and `none` (NaN) otherwise. -/
structure CleanRow where
  category : Option String
  productName : Option String
  salesAmount : Option ℚ
  grossProfit : Option ℚ
  marginRate : Option ℚ
  contribution : Option ℚ
  deriving DecidableEq

/-- Substring occurrence test on character lists. -/
def segIn (pat : List Char) : List Char → Bool
  | [] => pat.isEmpty
  | c :: cs => pat.isPrefixOf (c :: cs) || segIn pat cs

/-- Python `str.contains(pat)` (the markers used contain no regex metacharacters). -/
def strContains (s pat : String) : Bool := segIn pat.data s.data

/-- Marker filtered by `load_data` (line 42 of price_analysis.py). -/
def MARKER_SUMMARY : String := "汇总"

/-- Second marker filtered only by analyze_products.py line 69. -/
def MARKER_TOTAL : String := "总计"

/-- pandas `astype(str)` renders NaN as the string "nan". -/
def optStr : Option String → String
  | none => "nan"
  | some s => s

/-- pandas `Series.ffill` with the carried value of the last non-null entry. -/
def ffillFrom (carry : Option String) : List RawRow → List RawRow
  | [] => []
  | r :: rs =>
    match r.category with
    | some c => r :: ffillFrom (some c) rs
    | none => { r with category := carry } :: ffillFrom carry rs

/-- `df["一级分类"] = df["一级分类"].ffill()` (price_analysis.py line 40). -/
def ffillCategory (rows : List RawRow) : List RawRow := ffillFrom none rows

/-- `pd.to_numeric(x, errors="coerce")` on one cell. -/
def coerceCell : Cell → Option ℚ
  | Cell.numeric q => some q
  | _ => none

/-- Numeric coercion of the four NUMERIC_COLS, each independently (lines 43-44). -/
def coerceRow (r : RawRow) : CleanRow :=
  ⟨r.category, r.productName, coerceCell r.salesAmount, coerceCell r.grossProfit,
    coerceCell r.marginRate, coerceCell r.contribution⟩

/-- Rows kept by `load_data` before numeric coercion: ffill the category, keep
rows whose 商品名称 is non-null, then drop rows whose category (as a string,
NaN rendered "nan") contains the 汇总 marker (lines 40-42). -/
def keptRaw (rows : List RawRow) : List RawRow :=
  ((ffillCategory rows).filter (fun r => r.productName.isSome)).filter
    (fun r => !(strContains (optStr r.category) MARKER_SUMMARY))

/-- Cleaned table produced by `load_data` from the raw rows (lines 40-45). -/
def cleanRows (rows : List RawRow) : List CleanRow := (keptRaw rows).map coerceRow

/-- Column name 一级分类. -/
def colCategory : String := "一级分类"

/-- Column name 商品名称. -/
def colProductName : String := "商品名称"

/-- NUMERIC_COLS of price_analysis.py line 26. -/
def NUMERIC_COLS : List String :=
  ["求和项:实际金额", "求和项:销售毛利", "求和项:标品毛利率", "求和项:贡献值"]

/-- Input source: the sheet's schema (column names) and its rows. -/
structure Source where
  columns : List String
  rows : List RawRow

/-- Fatal input failure of the Loader (a missing required column raises at the
first access of that column; pandas surfaces it as a KeyError). -/
inductive InputError where
  | missingColumn : String → InputError
  deriving DecidableEq

/-- `load_data` (price_analysis.py lines 38-45): accessing 一级分类 (line 40),
商品名称 (line 41) and each NUMERIC_COLS column (line 44) fails when the
column is absent from the schema; otherwise the cleaned table is returned. -/
def load_data (src : Source) : Except InputError (List CleanRow) :=
  if colCategory ∈ src.columns then
    if colProductName ∈ src.columns then
      match NUMERIC_COLS.find? (fun c => !(src.columns.contains c)) with
      | some c => Except.error (InputError.missingColumn c)
      | none => Except.ok (cleanRows src.rows)
    else Except.error (InputError.missingColumn colProductName)
  else Except.error (InputError.missingColumn colCategory)

/-- Float value of a ratio of aggregates: finite rational, NaN, or ±inf. -/
inductive PVal where
  | num : ℚ → PVal
  | nan : PVal
  | inf : PVal
  | ninf : PVal
  deriving DecidableEq

/-- IEEE division of the two finite aggregate sums: x/0 is NaN or ±inf. -/
def divQ (gp sa : ℚ) : PVal :=
  if sa = 0 then (if gp = 0 then PVal.nan else if 0 < gp then PVal.inf else PVal.ninf)
  else PVal.num (gp / sa)

/-- Replacement of non-finite values by 0 (`replace([pd.NA, pd.NaT, inf, -inf], 0)`). -/
def pvalFin : PVal → ℚ
  | PVal.num q => q
  | _ => 0

/-- pandas skipna sum of a nullable column: missing entries contribute 0, an
all-missing (or empty) column sums to 0. -/
def osum (l : List (Option ℚ)) : ℚ := (l.map (fun o => o.getD 0)).sum

/-- pandas skipna mean: NaN (here `none`) when no value is present. -/
def omean (l : List (Option ℚ)) : Option ℚ :=
  if (l.filterMap id).length = 0 then none
  else some ((l.filterMap id).sum / ((l.filterMap id).length : ℚ))

/-- Insertion into a sorted rational list. -/
def insQ (x : ℚ) : List ℚ → List ℚ
  | [] => [x]
  | y :: ys => if x ≤ y then x :: y :: ys else y :: insQ x ys

/-- Ascending sort of a rational list. -/
def sortQ : List ℚ → List ℚ
  | [] => []
  | x :: xs => insQ x (sortQ xs)

/-- pandas median: NaN on the empty list, middle element for odd length, mean
of the two middle elements for even length. -/
def medianQ (l : List ℚ) : Option ℚ :=
  if (sortQ l).length = 0 then none
  else if (sortQ l).length % 2 = 1 then some ((sortQ l).getD ((sortQ l).length / 2) 0)
  else some
    (((sortQ l).getD ((sortQ l).length / 2 - 1) 0 + (sortQ l).getD ((sortQ l).length / 2) 0) / 2)

/-- pandas skipna median of a nullable column. -/
def omedian (l : List (Option ℚ)) : Option ℚ := medianQ (l.filterMap id)

/-- Row of the Category Summary (price_analysis.py lines 49-62). -/
structure CatRow where
  category : String
  salesAmount : ℚ
  grossProfit : ℚ
  avgMarginRate : Option ℚ
  medianMarginRate : Option ℚ
  skuCount : ℕ
  realized : PVal
  deriving DecidableEq

/-- Row of the Product Summary before the replace step (lines 64-75). -/
structure ProdRow where
  category : String
  productName : String
  salesAmount : ℚ
  grossProfit : ℚ
  avgMarginRate : Option ℚ
  realized : PVal
  deriving DecidableEq

/-- Row of the Product Summary after line 76 replaced NA/±inf by 0 everywhere. -/
structure ProdRowF where
  category : String
  productName : String
  salesAmount : ℚ
  grossProfit : ℚ
  avgMarginRate : ℚ
  realized : ℚ
  deriving DecidableEq

/-- `groupby("一级分类")`: one group per distinct non-null category (pandas
drops rows whose group key is NaN); group-key order is not load-bearing. -/
def catGroups (cl : List CleanRow) : List (String × List CleanRow) :=
  ((cl.filterMap (fun r => r.category)).dedup).map
    (fun k => (k, cl.filter (fun r => decide (r.category = some k))))

/-- Aggregations of one category group (lines 50-62): sums of 实际金额 and
销售毛利, mean and median of 标品毛利率, distinct 商品名称 count, then the
post-reduction ratio `gross_profit / sales_amount`. -/
def mkCatRow (k : String) (g : List CleanRow) : CatRow :=
  { category := k
    salesAmount := osum (g.map (fun r => r.salesAmount))
    grossProfit := osum (g.map (fun r => r.grossProfit))
    avgMarginRate := omean (g.map (fun r => r.marginRate))
    medianMarginRate := omedian (g.map (fun r => r.marginRate))
    skuCount := ((g.filterMap (fun r => r.productName)).dedup).length
    realized := divQ (osum (g.map (fun r => r.grossProfit)))
      (osum (g.map (fun r => r.salesAmount))) }

/-- Category Summary table. -/
def catSummary (cl : List CleanRow) : List CatRow :=
  (catGroups cl).map (fun p => mkCatRow p.1 p.2)

/-- Group key of the product summary; `none` when either key column is NaN
(such rows are dropped by `groupby(["一级分类", "商品名称"])`). -/
def prodKey (r : CleanRow) : Option (String × String) :=
  match r.category, r.productName with
  | some c, some p => some (c, p)
  | _, _ => none

/-- `groupby(["一级分类", "商品名称"])` groups. -/
def prodGroups (cl : List CleanRow) : List ((String × String) × List CleanRow) :=
  ((cl.filterMap prodKey).dedup).map
    (fun k => (k, cl.filter (fun r => decide (prodKey r = some k))))

/-- Aggregations of one product group (lines 65-75). -/
def mkProdRow (k : String × String) (g : List CleanRow) : ProdRow :=
  { category := k.1
    productName := k.2
    salesAmount := osum (g.map (fun r => r.salesAmount))
    grossProfit := osum (g.map (fun r => r.grossProfit))
    avgMarginRate := omean (g.map (fun r => r.marginRate))
    realized := divQ (osum (g.map (fun r => r.grossProfit)))
      (osum (g.map (fun r => r.salesAmount))) }

/-- Product Summary before the replace step. -/
def prodSummaryRaw (cl : List CleanRow) : List ProdRow :=
  (prodGroups cl).map (fun p => mkProdRow p.1 p.2)

/-- Line 76: `product_summary.replace([pd.NA, pd.NaT, inf, -inf], 0)` — every
missing or non-finite value of the product summary becomes 0 (the finite sums
are unaffected). -/
def replaceProdRow (pr : ProdRow) : ProdRowF :=
  ⟨pr.category, pr.productName, pr.salesAmount, pr.grossProfit,
    pr.avgMarginRate.getD 0, pvalFin pr.realized⟩

/-- `summarize` (lines 48-78): the Category Summary is returned as computed;
the Product Summary has NA/±inf replaced by 0. -/
def summarize (cl : List CleanRow) : List CatRow × List ProdRowF :=
  (catSummary cl, (prodSummaryRaw cl).map replaceProdRow)

/-- Stable insertion for the export sort. -/
def insertBy {α : Type _} (le : α → α → Bool) (x : α) : List α → List α
  | [] => [x]
  | y :: ys => if le x y then x :: y :: ys else y :: insertBy le x ys

/-- Insertion sort used to model `sort_values` (row order only, membership
is unaffected). -/
def sortBy {α : Type _} (le : α → α → Bool) : List α → List α
  | [] => []
  | x :: xs => insertBy le x (sortBy le xs)

/-- `high_margin` view (export_tables lines 179-181): realized ≥ 0.18, sorted
by realized rate descending. -/
def highMarginView (ps : List ProdRowF) : List ProdRowF :=
  sortBy (fun a b => decide (b.realized ≤ a.realized))
    (ps.filter (fun p => decide ((0.18 : ℚ) ≤ p.realized)))

/-- `low_margin` view (lines 182-184): realized ≤ 0.05, sorted by sales. -/
def lowMarginView (ps : List ProdRowF) : List ProdRowF :=
  sortBy (fun a b => decide (b.salesAmount ≤ a.salesAmount))
    (ps.filter (fun p => decide (p.realized ≤ (0.05 : ℚ))))

/-- `zero_margin` view (lines 185-187): realized ≤ 0, sorted by sales. -/
def zeroMarginView (ps : List ProdRowF) : List ProdRowF :=
  sortBy (fun a b => decide (b.salesAmount ≤ a.salesAmount))
    (ps.filter (fun p => decide (p.realized ≤ (0 : ℚ))))

/-- Artifacts written by `export_tables`. -/
structure Outputs where
  catTable : List CatRow
  prodTable : List ProdRowF
  highOut : List ProdRowF
  lowOut : List ProdRowF
  zeroOut : List ProdRowF
  deriving DecidableEq

/-- `export_tables` (lines 175-191) on the two summary tables. -/
def export_tables (s : List CatRow × List ProdRowF) : Outputs :=
  ⟨s.1, s.2, highMarginView s.2, lowMarginView s.2, zeroMarginView s.2⟩

/-- `main` (lines 194-208) up to the exported tables: the Loader failure
propagates and no output is produced. -/
def runMain (src : Source) : Except InputError Outputs :=
  Except.map (fun cl => export_tables (summarize cl)) (load_data src)

/-- NaN test of a raw cell (`notna` is its negation; unparseable text is notna). -/
def cellIsNA : Cell → Bool
  | Cell.missing => true
  | _ => false

/-- Marker filter of analyze_products.py line 69: `str.contains('汇总|总计',
na=False)` — a null (NaN) category row is kept. -/
def analyzeKeep (r : RawRow) : Bool :=
  match r.category with
  | none => true
  | some s => !(strContains s MARKER_SUMMARY || strContains s MARKER_TOTAL)

/-- Cleaning chain of `analyze_by_category` (analyze_products.py lines 62-69):
ffill the category, keep rows with 商品名称 and 求和项:实际金额 non-null, then
drop rows whose filled category contains 汇总 or 总计. -/
def analyzeCleanRows (rows : List RawRow) : List RawRow :=
  (((ffillCategory rows).filter (fun r => r.productName.isSome)).filter
      (fun r => !(cellIsNA r.salesAmount))).filter analyzeKeep

/-- Row of the `category_analysis` summary table fed to `identify_issues`:
金额 and 毛利 are the group sums and 毛利率 is the stored percentage column. -/
structure CARow where
  category : String
  amount : ℚ
  profit : ℚ
  rate : ℚ
  deriving DecidableEq

/-- 超高毛利率品类 (identify_issues lines 252-260): 毛利率 ≥ 18. -/
def highTier (t : List CARow) : List CARow :=
  t.filter (fun e => decide ((18 : ℚ) ≤ e.rate))

/-- 超低毛利率品类 (lines 262-270): 毛利率 ≤ 5. -/
def lowTier (t : List CARow) : List CARow :=
  t.filter (fun e => decide (e.rate ≤ (5 : ℚ)))

/-- 零负毛利品类 (lines 272-280): 毛利率 ≤ 2. -/
def zeroNegTier (t : List CARow) : List CARow :=
  t.filter (fun e => decide (e.rate ≤ (2 : ℚ)))

/-- 大而不赚品类 (lines 282-292): 金额 ≥ median of the table's 金额 column
(recomputed from the passed table) and 毛利率 < 10; comparison with the NaN
median of an empty table is false. -/
def bigLowTier (t : List CARow) : List CARow :=
  t.filter (fun e =>
    (match medianQ (t.map (fun x => x.amount)) with
     | none => false
     | some m => decide (m ≤ e.amount)) && decide (e.rate < (10 : ℚ)))

/-- Two raw rows agreeing on the key (non-numeric) columns. -/
def sameKeys (a b : RawRow) : Prop :=
  a.category = b.category ∧ a.productName = b.productName

/-- Sales amount contributed by a cleaned row to a pandas skipna sum. -/
def rowSA (r : CleanRow) : ℚ := r.salesAmount.getD 0

/-- pandas skipna sum of 求和项:实际金额 over a cleaned table. -/
def sumSA (l : List CleanRow) : ℚ := (l.map rowSA).sum

/-! Helper lemmas. -/

theorem mem_insertBy {α : Type _} (le : α → α → Bool) (x a : α) (l : List α) :
    a ∈ insertBy le x l ↔ a = x ∨ a ∈ l := by
  induction l with
  | nil => simp [insertBy]
  | cons y ys ih =>
    by_cases h : le x y = true
    · simp [insertBy, h]
    · simp only [insertBy, if_neg h, List.mem_cons, ih]
      tauto

theorem mem_sortBy {α : Type _} (le : α → α → Bool) (a : α) (l : List α) :
    a ∈ sortBy le l ↔ a ∈ l := by
  induction l with
  | nil => simp [sortBy]
  | cons x xs ih => simp [sortBy, mem_insertBy, ih]

theorem sumSA_nil : sumSA [] = 0 := rfl

theorem sumSA_cons (a : CleanRow) (l : List CleanRow) :
    sumSA (a :: l) = rowSA a + sumSA l := by
  simp [sumSA]

/-- Splitting a skipna column sum of a filtered table along a second predicate. -/
theorem sumSA_split (l : List CleanRow) (p q : CleanRow → Bool) :
    sumSA (l.filter p)
      = sumSA (l.filter (fun r => p r && q r)) + sumSA (l.filter (fun r => p r && !(q r))) := by
  induction l with
  | nil => simp [sumSA]
  | cons a t ih =>
    cases hp : p a <;> cases hq : q a <;>
      simp only [List.filter_cons, hp, hq, Bool.true_and, Bool.false_and, Bool.not_true,
        Bool.not_false, if_pos, if_neg, Bool.false_eq_true, ite_true, ite_false, sumSA_cons, ih] <;>
      ring

/-- Core conservation argument: summing a group reduction over a complete and
duplicate-free list of group keys recovers the column sum over the rows that
carry a (non-null) key. -/
theorem sum_groups : ∀ (keys : List String), keys.Nodup →
    ∀ cl : List CleanRow, (∀ r ∈ cl, ∀ c, r.category = some c → c ∈ keys) →
    (keys.map (fun k => sumSA (cl.filter (fun r => decide (r.category = some k))))).sum
      = sumSA (cl.filter (fun r => r.category.isSome)) := by
  intro keys
  induction keys with
  | nil =>
    intro _ cl hcov
    have hnone : cl.filter (fun r => r.category.isSome) = [] := by
      apply List.filter_eq_nil_iff.mpr
      intro r hr
      cases hc : r.category with
      | none => simp [hc]
      | some c => exact absurd (hcov r hr c hc) (List.not_mem_nil c)
    simp [hnone, sumSA]
  | cons k ks ih =>
    intro hnd cl hcov
    have hknotks : k ∉ ks := (List.nodup_cons.mp hnd).1
    have hndks : ks.Nodup := (List.nodup_cons.mp hnd).2
    -- rows not in the group of k
    set cl' : List CleanRow := cl.filter (fun r => !(decide (r.category = some k))) with hcl'
    -- the tail groups are untouched by removing the k-group rows
    have hgroups : ∀ k' ∈ ks,
        cl'.filter (fun r => decide (r.category = some k'))
          = cl.filter (fun r => decide (r.category = some k')) := by
      intro k' hk'
      rw [hcl', List.filter_filter]
      apply List.filter_congr
      intro r _
      cases hc : r.category with
      | none => simp
      | some c =>
        have hkk : k' ≠ k := fun h => hknotks (h ▸ hk')
        by_cases hck : c = k'
        · simp [hc, hck, hkk]
        · simp [hc, hck]
    have hcov' : ∀ r ∈ cl', ∀ c, r.category = some c → c ∈ ks := by
      intro r hr c hc
      have hr2 := List.mem_filter.mp hr
      have hcl : c ∈ k :: ks := hcov r hr2.1 c hc
      have hne : c ≠ k := by
        intro hck
        have := hr2.2
        simp [hc, hck] at this
      rcases List.mem_cons.mp hcl with h | h
      · exact absurd h hne
      · exact h
    have hih := ih hndks cl' hcov'
    have hmapeq :
        (ks.map (fun k' => sumSA (cl'.filter (fun r => decide (r.category = some k'))))).sum
          = (ks.map (fun k' => sumSA (cl.filter (fun r => decide (r.category = some k'))))).sum := by
      congr 1
      exact List.map_congr_left (fun k' hk' => by rw [hgroups k' hk'])
    have hsplit := sumSA_split cl (fun r => r.category.isSome) (fun r => decide (r.category = some k))
    have h1 : cl.filter (fun r => r.category.isSome && decide (r.category = some k))
        = cl.filter (fun r => decide (r.category = some k)) := by
      apply List.filter_congr
      intro r _
      cases hc : r.category <;> simp [hc]
    have h2 : cl.filter (fun r => r.category.isSome && !(decide (r.category = some k)))
        = cl'.filter (fun r => r.category.isSome) := by
      rw [hcl', List.filter_filter]
    rw [List.map_cons, List.sum_cons, ← hmapeq, hih, hsplit, h1, h2]

/-- Forward-filling from a non-null carry yields only non-null categories. -/
theorem ffillFrom_isSome : ∀ (rows : List RawRow) (c : String) (r : RawRow),
    r ∈ ffillFrom (some c) rows → r.category.isSome = true := by
  intro rows
  induction rows with
  | nil => intro c r hr; simp [ffillFrom] at hr
  | cons a as ih =>
    intro c r hr
    cases hc : a.category with
    | some d =>
      rw [ffillFrom, hc] at hr
      rcases List.mem_cons.mp hr with h | h
      · rw [h, hc]; rfl
      · exact ih d r h
    | none =>
      rw [ffillFrom, hc] at hr
      rcases List.mem_cons.mp hr with h | h
      · rw [h]; rfl
      · exact ih c r h

/-- Forward fill preserves pointwise agreement on the key columns. -/
theorem forall2_ffillFrom :
    ∀ (l₁ l₂ : List RawRow), List.Forall₂ sameKeys l₁ l₂ → ∀ carry : Option String,
      List.Forall₂ sameKeys (ffillFrom carry l₁) (ffillFrom carry l₂) := by
  intro l₁ l₂ h
  induction h with
  | nil => intro carry; simp [ffillFrom]
  | @cons a b as bs hab _ ih =>
    intro carry
    cases hc : a.category with
    | some d =>
      have hbc : b.category = some d := hab.1 ▸ hc
      rw [ffillFrom, hc, ffillFrom, hbc]
      exact List.Forall₂.cons hab (ih (some d))
    | none =>
      have hbc : b.category = none := hab.1 ▸ hc
      rw [ffillFrom, hc, ffillFrom, hbc]
      exact List.Forall₂.cons ⟨rfl, hab.2⟩ (ih carry)

/-- Filtering by a predicate that reads only the key columns preserves
pointwise agreement on the key columns. -/
theorem forall2_filter (p : RawRow → Bool) (hp : ∀ a b, sameKeys a b → p a = p b) :
    ∀ (l₁ l₂ : List RawRow), List.Forall₂ sameKeys l₁ l₂ →
      List.Forall₂ sameKeys (l₁.filter p) (l₂.filter p) := by
  intro l₁ l₂ h
  induction h with
  | nil => simp
  | @cons a b as bs hab _ ih =>
    cases hpa : p a with
    | true =>
      have hpb : p b = true := (hp a b hab) ▸ hpa
      simp only [List.filter_cons, hpa, hpb, if_pos]
      exact List.Forall₂.cons hab ih
    | false =>
      have hpb : p b = false := (hp a b hab) ▸ hpa
      simpa only [List.filter_cons, hpa, hpb, Bool.false_eq_true, if_neg] using ih

/-- Spelling of the aggregate ratio at a nonzero denominator. -/
theorem divQ_of_ne (gp sa : ℚ) (h : sa ≠ 0) : divQ gp sa = PVal.num (gp / sa) := by
  simp [divQ, h]

/-- Effect of the replace step on the aggregate ratio: non-finite values
(which arise exactly from a zero denominator) collapse to 0. -/
theorem pvalFin_divQ (gp sa : ℚ) : pvalFin (divQ gp sa) = if sa = 0 then 0 else gp / sa := by
  by_cases h : sa = 0
  · simp only [divQ, if_pos h]
    split_ifs <;> simp [pvalFin, h]
  · simp [divQ, h, pvalFin]

/-- Membership in the 零负毛利 tier of identify_issues. -/
theorem mem_zeroNegTier (t : List CARow) (e : CARow) :
    e ∈ zeroNegTier t ↔ e ∈ t ∧ e.rate ≤ 2 := by
  simp [zeroNegTier, List.mem_filter]

/-- Membership in the 超高毛利率 tier of identify_issues. -/
theorem mem_highTier (t : List CARow) (e : CARow) :
    e ∈ highTier t ↔ e ∈ t ∧ (18 : ℚ) ≤ e.rate := by
  simp [highTier, List.mem_filter]

/-- Membership in the exported zero_margin_products view. -/
theorem mem_zeroMarginView (ps : List ProdRowF) (p : ProdRowF) :
    p ∈ zeroMarginView ps ↔ p ∈ ps ∧ p.realized ≤ 0 := by
  rw [zeroMarginView, mem_sortBy]
  simp [List.mem_filter]

/-- Membership in the exported high_margin_products view. -/
theorem mem_highMarginView (ps : List ProdRowF) (p : ProdRowF) :
    p ∈ highMarginView ps ↔ p ∈ ps ∧ (0.18 : ℚ) ≤ p.realized := by
  rw [highMarginView, mem_sortBy]
  simp [List.mem_filter]

/-! Concrete inputs used by counterexamples and witnesses. -/

/-- Raw input whose one data row has an unparseable 实际金额 cell, so the
category group's sales sum is 0 while its profit sum is 5. -/
def exC1 : List RawRow :=
  [⟨some "A", some "p", Cell.text "x", Cell.numeric 5, Cell.missing, Cell.missing⟩]

/-- Raw input with one fully numeric data row (sales 100, profit 5). -/
def exC1w : List RawRow :=
  [⟨some "A", some "p", Cell.numeric 100, Cell.numeric 5, Cell.missing, Cell.missing⟩]

/-- Category Summary row produced by `exC1w`. -/
def c1wRow : CatRow := ⟨"A", 100, 5, none, none, 1, PVal.num (1/20)⟩

/-- Raw input whose one data row has a null category (nothing precedes it to
fill from) and sales 100. -/
def exC2 : List RawRow :=
  [⟨none, some "p", Cell.numeric 100, Cell.missing, Cell.missing, Cell.missing⟩]

/-- Raw input whose first row has a null category followed by a labelled row. -/
def exC3 : List RawRow :=
  [⟨none, some "p1", Cell.missing, Cell.missing, Cell.missing, Cell.missing⟩,
   ⟨some "A", some "p2", Cell.missing, Cell.missing, Cell.missing, Cell.missing⟩]

/-- Raw row whose first row carries a category label. -/
def exC3w : RawRow := ⟨some "A", some "p", Cell.missing, Cell.missing, Cell.missing, Cell.missing⟩

/-- Cleaned image of `exC3w`. -/
def c3wRow : CleanRow := ⟨some "A", some "p", none, none, none, none⟩

/-- Raw input whose category contains the 总计 (total) marker but not 汇总. -/
def exC4 : List RawRow :=
  [⟨some "部门总计", some "p", Cell.missing, Cell.missing, Cell.missing, Cell.missing⟩]

/-- Raw input with an ordinary category label. -/
def exC4w : List RawRow :=
  [⟨some "A", some "p", Cell.numeric 1, Cell.missing, Cell.missing, Cell.missing⟩]

/-- Cleaned image of the row of `exC4w`. -/
def c4wRow : CleanRow := ⟨some "A", some "p", some 1, none, none, none⟩

/-- Raw input with all numeric cells parseable. -/
def exC6a : List RawRow :=
  [⟨some "A", some "p", Cell.numeric 7, Cell.numeric 1, Cell.numeric 2, Cell.missing⟩]

/-- Same keys as `exC6a` but with an unparseable 实际金额 cell. -/
def exC6b : List RawRow :=
  [⟨some "A", some "p", Cell.text "oops", Cell.numeric 1, Cell.numeric 2, Cell.missing⟩]

/-- Raw input producing a product with realized margin rate 1% (sales 100,
profit 1). -/
def exC7 : List RawRow :=
  [⟨some "A", some "p", Cell.numeric 100, Cell.numeric 1, Cell.missing, Cell.missing⟩]

/-- Product Summary row produced by `exC7`. -/
def c7Row : ProdRowF := ⟨"A", "p", 100, 1, 0, 1/100⟩

/-- Raw input whose one row has an unparseable 标品毛利率 cell. -/
def exC10a : List RawRow :=
  [⟨some "A", some "p", Cell.numeric 10, Cell.numeric 1, Cell.text "x", Cell.missing⟩]

/-- Raw input whose one row has an unparseable 实际金额 cell and profit 1. -/
def exC10b : List RawRow :=
  [⟨some "A", some "p", Cell.text "x", Cell.numeric 1, Cell.missing, Cell.missing⟩]

/-! Claim theorems. -/

/-- C1 counterexample: the claim says every Category Summary row with a zero
sales_amount sum has realized_margin_rate 0, but on `exC1` (sales sum 0,
profit sum 5) the Category Summary keeps the non-finite quotient +inf — the
replace-by-0 step of `summarize` is applied only to the Product Summary. -/
theorem C1_counterexample :
    (summarize (cleanRows exC1)).1.map (fun c => c.salesAmount) = [0] ∧
    (summarize (cleanRows exC1)).1.map (fun c => c.realized) = [PVal.inf] ∧
    PVal.inf ≠ PVal.num 0 := by
  refine ⟨?_, ?_, by simp⟩ <;>
    simp +decide [summarize, catSummary, catGroups, mkCatRow, cleanRows, keptRaw, ffillCategory,
      ffillFrom, coerceRow, coerceCell, optStr, exC1, osum, omean, omedian, medianQ, sortQ, divQ]

/-- C1 (amended): every Category Summary row carries the raw IEEE quotient of
its aggregate sums — equal to gross_profit/sales_amount whenever the
sales_amount sum is nonzero, and a retained non-finite value (not 0) when it
is zero — while every Product Summary row carries the quotient with
non-finite results replaced by 0. -/
theorem C1_realized_margin (cl : List CleanRow) :
    (∀ c ∈ (summarize cl).1,
        c.realized = divQ c.grossProfit c.salesAmount ∧
        (c.salesAmount ≠ 0 → c.realized = PVal.num (c.grossProfit / c.salesAmount))) ∧
    (∀ p ∈ (summarize cl).2,
        p.realized = if p.salesAmount = 0 then 0 else p.grossProfit / p.salesAmount) := by
  constructor
  · intro c hc
    rcases List.mem_map.mp hc with ⟨pg, _, rfl⟩
    exact ⟨rfl, fun hsa => divQ_of_ne _ _ hsa⟩
  · intro p hp
    rcases List.mem_map.mp hp with ⟨pr, hpr, rfl⟩
    rcases List.mem_map.mp hpr with ⟨kg, _, rfl⟩
    exact pvalFin_divQ _ _

/-- C1 witness: the amended theorem applied to the Category Summary row of
the concrete input `exC1w`. -/
theorem C1_realized_margin_witness :
    c1wRow.realized = divQ c1wRow.grossProfit c1wRow.salesAmount ∧
    (c1wRow.salesAmount ≠ 0 →
      c1wRow.realized = PVal.num (c1wRow.grossProfit / c1wRow.salesAmount)) :=
  (C1_realized_margin (cleanRows exC1w)).1 c1wRow (by
    have h : (summarize (cleanRows exC1w)).1 = [c1wRow] := by
      simp +decide [summarize, catSummary, catGroups, mkCatRow, cleanRows, keptRaw, ffillCategory,
        ffillFrom, coerceRow, coerceCell, optStr, exC1w, osum, omean, omedian, medianQ, sortQ,
        divQ, c1wRow]
      norm_num
    rw [h]
    exact List.mem_singleton.mpr rfl)

/-- C2 counterexample: on `exC2` the cleaned table has one row with a null
category (forward-fill had nothing to fill it from) and sales 100; pandas
groupby drops null keys, so the Category Summary sums to 0 while the cleaned
table sums to 100 — conservation fails exactly in the case the claim includes
("including when some cleaned rows have a null category"). -/
theorem C2_counterexample :
    ((catSummary (cleanRows exC2)).map (fun c => c.salesAmount)).sum = 0 ∧
    sumSA (cleanRows exC2) = 100 ∧ ((0 : ℚ) ≠ 100) := by
  refine ⟨?_, ?_, by norm_num⟩ <;>
    simp +decide [catSummary, catGroups, mkCatRow, cleanRows, keptRaw, ffillCategory,
      ffillFrom, coerceRow, coerceCell, optStr, exC2, osum, sumSA, rowSA]

/-- C2 (amended): for every cleaned table, the sum of sales_amount over all
Category Summary rows equals the sum of sales_amount over the cleaned rows
whose category is non-null (exact, in rational arithmetic); rows with a null
post-fill category are dropped by the groupby and are not conserved. -/
theorem C2_conservation (cl : List CleanRow) :
    ((catSummary cl).map (fun c => c.salesAmount)).sum
      = sumSA (cl.filter (fun r => r.category.isSome)) := by
  have hcov : ∀ r ∈ cl, ∀ c, r.category = some c →
      c ∈ (cl.filterMap (fun r => r.category)).dedup := by
    intro r hr c hc
    rw [List.mem_dedup]
    exact List.mem_filterMap.mpr ⟨r, hr, hc⟩
  have h := sum_groups _ (List.nodup_dedup _) cl hcov
  rw [catSummary, catGroups, List.map_map, List.map_map]
  refine Eq.trans ?_ h
  congr 1
  apply List.map_congr_left
  intro k _
  show osum ((cl.filter (fun r => decide (r.category = some k))).map (fun r => r.salesAmount)) = _
  rw [osum, List.map_map]
  rfl

/-- C3 counterexample: on `exC3`, whose first raw row has a null category, the
cleaned table's first row still has a null category — forward fill has no
preceding non-null entry to copy, so the invariant fails for inputs whose
first rows have a null category. -/
theorem C3_counterexample :
    (cleanRows exC3).map (fun r => r.category) = [none, some "A"] := by
  simp +decide [cleanRows, keptRaw, ffillCategory, ffillFrom, coerceRow, coerceCell, optStr, exC3]

/-- C3 (amended): forward-fill runs before the product_name filter and each
null category takes the nearest preceding non-null value, so whenever the
input's first row carries a non-null category every cleaned row has a
non-null category; only rows preceding the first non-null category can
survive with a null category. -/
theorem C3_filled_invariant (r0 : RawRow) (rest : List RawRow) (c : String)
    (h : r0.category = some c) :
    ∀ row ∈ cleanRows (r0 :: rest), row.category.isSome = true := by
  intro row hrow
  rcases List.mem_map.mp hrow with ⟨rr, hrr, rfl⟩
  have hrr1 := (List.mem_filter.mp hrr).1
  have hrr2 := (List.mem_filter.mp hrr1).1
  have hff : ffillCategory (r0 :: rest) = r0 :: ffillFrom (some c) rest := by
    rw [ffillCategory, ffillFrom, h]
  rw [hff] at hrr2
  rcases List.mem_cons.mp hrr2 with h1 | h1
  · show rr.category.isSome = true
    rw [h1, h]
    rfl
  · exact ffillFrom_isSome rest c rr h1

/-- C3 witness: the amended invariant applied to the concrete input `exC3w`. -/
theorem C3_filled_invariant_witness : c3wRow.category.isSome = true :=
  C3_filled_invariant exC3w [] "A" rfl c3wRow (by
    have h : cleanRows [exC3w] = [c3wRow] := by
      simp +decide [cleanRows, keptRaw, ffillCategory, ffillFrom, coerceRow, coerceCell, optStr,
        exC3w, c3wRow]
    rw [h]
    exact List.mem_singleton.mpr rfl)

/-- C4 counterexample: a row whose category 部门总计 contains the total marker
总计 (but not the summary marker 汇总) survives `load_data` cleaning — the
Loader filters only the 汇总 substring, so total-marked rows do appear in the
cleaned table and contribute to aggregates. -/
theorem C4_counterexample :
    cleanRows exC4 = [⟨some "部门总计", some "p", none, none, none, none⟩] ∧
    strContains "部门总计" MARKER_TOTAL = true := by
  constructor
  · simp +decide [cleanRows, keptRaw, ffillCategory, ffillFrom, coerceRow, coerceCell, optStr, exC4]
  · decide

/-- C4 (amended): the Loader's cleaned table never contains a row whose
post-fill category contains the 汇总 (summary) marker — but only that marker;
the alternate analyze_by_category cleaning additionally excludes the 总计
(total) marker, so no row surviving it carries either marker. -/
theorem C4_marker_filter (rows : List RawRow) :
    (∀ r ∈ cleanRows rows, strContains (optStr r.category) MARKER_SUMMARY = false) ∧
    (∀ r ∈ analyzeCleanRows rows, ∀ s, r.category = some s →
      strContains s MARKER_SUMMARY = false ∧ strContains s MARKER_TOTAL = false) := by
  constructor
  · intro r hr
    rcases List.mem_map.mp hr with ⟨rr, hrr, rfl⟩
    have h2 := (List.mem_filter.mp hrr).2
    have h3 : strContains (optStr rr.category) MARKER_SUMMARY = false := by
      simpa using h2
    exact h3
  · intro r hr s hs
    have h2 := (List.mem_filter.mp hr).2
    simp only [analyzeKeep, hs] at h2
    simpa using h2

/-- C4 witness: the amended theorem applied to the concrete input `exC4w`. -/
theorem C4_marker_filter_witness :
    strContains (optStr c4wRow.category) MARKER_SUMMARY = false :=
  (C4_marker_filter exC4w).1 c4wRow (by
    have h : cleanRows exC4w = [c4wRow] := by
      simp +decide [cleanRows, keptRaw, ffillCategory, ffillFrom, coerceRow, coerceCell, optStr,
        exC4w, c4wRow]
    rw [h]
    exact List.mem_singleton.mpr rfl)

/-- C5: whenever the source schema lacks the category column, the product-name
column, or every amount column, the whole pipeline fails with an InputError
and produces no output tables. -/
theorem C5_input_error (src : Source)
    (h : colCategory ∉ src.columns ∨ colProductName ∉ src.columns ∨
      ∀ c ∈ NUMERIC_COLS, c ∉ src.columns) :
    ∃ e, runMain src = Except.error e := by
  rcases h with h1 | h2 | h3
  · exact ⟨InputError.missingColumn colCategory, by simp [runMain, load_data, h1, Except.map]⟩
  · by_cases hc : colCategory ∈ src.columns
    · exact ⟨InputError.missingColumn colProductName,
        by simp [runMain, load_data, hc, h2, Except.map]⟩
    · exact ⟨InputError.missingColumn colCategory, by simp [runMain, load_data, hc, Except.map]⟩
  · by_cases hc : colCategory ∈ src.columns
    · by_cases hp : colProductName ∈ src.columns
      · refine ⟨InputError.missingColumn "求和项:实际金额", ?_⟩
        have hm : "求和项:实际金额" ∉ src.columns := h3 _ (by simp [NUMERIC_COLS])
        simp [runMain, load_data, hc, hp, Except.map, NUMERIC_COLS, List.find?, hm]
      · exact ⟨InputError.missingColumn colProductName,
          by simp [runMain, load_data, hc, hp, Except.map]⟩
    · exact ⟨InputError.missingColumn colCategory, by simp [runMain, load_data, hc, Except.map]⟩

/-- C5 witness: a schema with only the product-name column makes the pipeline
fail before any output is produced. -/
theorem C5_input_error_witness :
    (runMain ⟨[colProductName], []⟩).isOk = false := by
  rcases C5_input_error ⟨[colProductName], []⟩ (Or.inl (by decide)) with ⟨e, he⟩
  rw [he]
  rfl

/-- C6: numeric coercion is per-cell — each cleaned numeric field is the
coercion of its own raw cell (unparseable text and empty cells become the
`none` sentinel, parsed values are kept), and row retention in the cleaned
table is decided by the key columns alone, so two inputs agreeing on the key
columns keep exactly corresponding rows whatever their numeric cells hold. -/
theorem C6_coercion_independence (rows₁ rows₂ : List RawRow)
    (h : List.Forall₂ sameKeys rows₁ rows₂) :
    List.Forall₂ sameKeys (keptRaw rows₁) (keptRaw rows₂) ∧
    (cleanRows rows₁).length = (cleanRows rows₂).length ∧
    (∀ r : RawRow,
      (coerceRow r).salesAmount = coerceCell r.salesAmount ∧
      (coerceRow r).grossProfit = coerceCell r.grossProfit ∧
      (coerceRow r).marginRate = coerceCell r.marginRate ∧
      (coerceRow r).contribution = coerceCell r.contribution) ∧
    (∀ s : String, coerceCell (Cell.text s) = none) ∧ coerceCell Cell.missing = none := by
  have hkept : List.Forall₂ sameKeys (keptRaw rows₁) (keptRaw rows₂) := by
    apply forall2_filter _ (fun a b hab => by rw [show a.category = b.category from hab.1])
    apply forall2_filter _ (fun a b hab => by rw [show a.productName = b.productName from hab.2])
    exact forall2_ffillFrom rows₁ rows₂ h none
  refine ⟨hkept, ?_, fun r => ⟨rfl, rfl, rfl, rfl⟩, fun s => rfl, rfl⟩
  rw [cleanRows, cleanRows, List.length_map, List.length_map]
  exact hkept.length_eq

/-- C6 witness: corrupting the 实际金额 cell of the one data row (exC6a vs
exC6b) does not change how many rows the cleaned table retains. -/
theorem C6_coercion_independence_witness :
    (cleanRows exC6a).length = (cleanRows exC6b).length :=
  (C6_coercion_independence exC6a exC6b (List.Forall₂.cons ⟨rfl, rfl⟩ List.Forall₂.nil)).2.1

/-- C7 counterexample: the product of `exC7` has realized margin rate 1/100,
i.e. 1% ≤ 2% as a percentage, yet it is absent from the exported zero-margin
view: export_tables uses `realized <= 0`, not the 2% tier threshold. -/
theorem C7_counterexample :
    (summarize (cleanRows exC7)).2 = [c7Row] ∧
    c7Row.realized * 100 ≤ 2 ∧
    c7Row ∉ zeroMarginView (summarize (cleanRows exC7)).2 := by
  have hs : (summarize (cleanRows exC7)).2 = [c7Row] := by
    simp +decide [summarize, prodSummaryRaw, prodGroups, mkProdRow, replaceProdRow, pvalFin,
      prodKey, cleanRows, keptRaw, ffillCategory, ffillFrom, coerceRow, coerceCell, optStr,
      exC7, osum, omean, divQ, c7Row]
  refine ⟨hs, by norm_num [c7Row], ?_⟩
  rw [hs]
  intro hmem
  have h2 := (mem_zeroMarginView _ _).mp hmem
  have h3 := h2.2
  norm_num [c7Row] at h3

/-- C7 (amended): the Classifier's Zero/negative-margin tier holds exactly the
entities whose stored percentage rate is ≤ 2, while the exported zero-margin
product view holds exactly the products with realized rate ≤ 0 — the two
cutoffs differ, so a product with a rate in (0%, 2%] is in the tier but not in
the exported view. -/
theorem C7_zero_margin (t : List CARow) (e : CARow) (ps : List ProdRowF) (p : ProdRowF) :
    (e ∈ zeroNegTier t ↔ e ∈ t ∧ e.rate ≤ 2) ∧
    (p ∈ zeroMarginView ps ↔ p ∈ ps ∧ p.realized ≤ 0) :=
  ⟨mem_zeroNegTier t e, mem_zeroMarginView ps p⟩

/-- C8: High-margin membership is boundary-inclusive in both places — the
identify_issues tier holds exactly the entities with rate ≥ 18 (percent) and
the exported high-margin view exactly the products with realized ≥ 0.18, so
an entity at exactly 18% is included. -/
theorem C8_high_margin (t : List CARow) (e : CARow) (ps : List ProdRowF) (p : ProdRowF) :
    (e ∈ highTier t ↔ e ∈ t ∧ (18 : ℚ) ≤ e.rate) ∧
    (p ∈ highMarginView ps ↔ p ∈ ps ∧ (0.18 : ℚ) ≤ p.realized) :=
  ⟨mem_highTier t e, mem_highMarginView ps p⟩

/-- C9: Large-but-unprofitable membership holds exactly when the rate is
below 10 (percent) and the amount is at least the median of the amount column
of the very table passed to the call — the median is recomputed from that
table, not a constant. -/
theorem C9_big_low (t : List CARow) (e : CARow) :
    e ∈ bigLowTier t ↔ e ∈ t ∧ e.rate < 10 ∧
      ∃ m, medianQ (t.map (fun x => x.amount)) = some m ∧ m ≤ e.amount := by
  rw [bigLowTier, List.mem_filter]
  cases h : medianQ (t.map (fun x => x.amount)) with
  | none => simp [h]
  | some m =>
    simp only [h, Bool.and_eq_true, decide_eq_true_eq, Option.some_inj]
    constructor
    · rintro ⟨h1, h2, h3⟩
      exact ⟨h1, h3, m, rfl, h2⟩
    · rintro ⟨h1, h2, m', hm', h3⟩
      exact ⟨h1, hm' ▸ h3, h2⟩

/-- C10: the replace-by-0 step applies to the Product Summary only — the
product table is exactly the raw product aggregation with every missing mean
and every non-finite ratio replaced by 0 (sums are untouched), and on
concrete inputs an all-unparseable margin-rate group gets avg_margin_rate 0
in the Product Summary while the Category Summary keeps the missing value
(and likewise keeps a non-finite realized ratio). -/
theorem C10_product_replace :
    (∀ cl : List CleanRow, (summarize cl).2 = (prodSummaryRaw cl).map replaceProdRow) ∧
    (∀ pr : ProdRow,
      (replaceProdRow pr).salesAmount = pr.salesAmount ∧
      (replaceProdRow pr).grossProfit = pr.grossProfit ∧
      (replaceProdRow pr).avgMarginRate = pr.avgMarginRate.getD 0 ∧
      (replaceProdRow pr).realized = pvalFin pr.realized) ∧
    ((summarize (cleanRows exC10a)).2.map (fun p => p.avgMarginRate) = [0] ∧
      (summarize (cleanRows exC10a)).1.map (fun c => c.avgMarginRate) = [none]) ∧
    ((summarize (cleanRows exC10b)).2.map (fun p => p.realized) = [0] ∧
      (summarize (cleanRows exC10b)).1.map (fun c => c.realized) = [PVal.inf]) := by
  refine ⟨fun cl => rfl, fun pr => ⟨rfl, rfl, rfl, rfl⟩, ⟨?_, ?_⟩, ⟨?_, ?_⟩⟩ <;>
    simp +decide [summarize, catSummary, catGroups, mkCatRow, prodSummaryRaw, prodGroups,
      mkProdRow, replaceProdRow, pvalFin, prodKey, cleanRows, keptRaw, ffillCategory, ffillFrom,
      coerceRow, coerceCell, optStr, exC10a, exC10b, osum, omean, omedian, medianQ, sortQ, divQ]

end Systerm
